import Mathlib

/-!
Verification of the amdfan fan-control program (src/amdfan/amdfan.py)
against its natural-language specification.

Shallow embedding conventions:
* Python/numpy floating-point numbers are modelled as exact rationals `ℚ`;
  all concrete values appearing in the spec's test vectors are exactly
  representable, so the rational model coincides with the float one there.
* Python `int(x)` (truncation toward zero) is modelled by `truncQ`.
* The sysfs tree is modelled by an abstract `SysFS` structure providing
  directory listings; file contents only matter through the parsed integer
  values, which are supplied as functions where needed.
* Fallible Python code (raised exceptions) is modelled with `Except`.
-/

deriving instance DecidableEq for Except

namespace Amdfan

/-- Python `int()` applied to a rational: truncation toward zero. -/
def truncQ (q : ℚ) : ℤ := if q < 0 then ⌈q⌉ else ⌊q⌋

/-! ## Curve model (`Curve.__init__` and `Curve.get_speed`) -/

/-- The distinct exceptions `Curve.__init__` can raise: the `IndexError`
from slicing an empty point array, and the five `ValueError`s, one per
validation check, in source order. -/
inductive CurveError
  | indexError
  | negativeSpeed
  | speedOver100
  | tempsNotIncreasing
  | speedsDecreasing
  | minSpeedFloor
deriving DecidableEq

/-- Source: `self.temps = self.points[:, 0]`. -/
def temps (pts : List (ℚ × ℚ)) : List ℚ := pts.map Prod.fst

/-- Source: `self.speeds = self.points[:, 1]`. -/
def speeds (pts : List (ℚ × ℚ)) : List ℚ := pts.map Prod.snd

/-- Model of `np.diff`: consecutive differences of a list. -/
def diffs : List ℚ → List ℚ
  | a :: b :: rest => (b - a) :: diffs (b :: rest)
  | _ => []

/-- Model of `Curve.__init__`: the five validation checks in source order, each
raising its own error; an empty point list already fails when slicing
the array.  `np.min(xs) < 0` is `xs.any (· < 0)`, `np.max(xs) > 100` is
`xs.any (100 < ·)`, `np.any(np.diff xs ≤ 0)` is `(diffs xs).any (· ≤ 0)`,
and the floor check is `np.min(speeds) <= 3`. -/
def curveInit (pts : List (ℚ × ℚ)) : Except CurveError (List (ℚ × ℚ)) :=
  if pts = [] then .error .indexError
  else if (speeds pts).any (fun s => decide (s < 0)) then .error .negativeSpeed
  else if (speeds pts).any (fun s => decide (100 < s)) then .error .speedOver100
  else if (diffs (temps pts)).any (fun d => decide (d ≤ 0)) then .error .tempsNotIncreasing
  else if (diffs (speeds pts)).any (fun d => decide (d < 0)) then .error .speedsDecreasing
  else if (speeds pts).any (fun s => decide (s ≤ 3)) then .error .minSpeedFloor
  else .ok pts

/-- A point list accepted by `Curve.__init__` (which returns the points
unchanged on success). -/
def ValidCurve (pts : List (ℚ × ℚ)) : Prop := curveInit pts = .ok pts

/-- Model of `Curve.get_speed`, i.e. `np.interp(x, temps, speeds)` for an
increasing abscissa list: clamp to the boundary ordinates outside the
domain, linear interpolation between consecutive points inside. -/
def interp (x : ℚ) : List (ℚ × ℚ) → ℚ
  | [] => 0
  | [p] => p.2
  | p :: q :: rest =>
    if x ≤ p.1 then p.2
    else if x ≤ q.1 then p.2 + (x - p.1) / (q.1 - p.1) * (q.2 - p.2)
    else interp x (q :: rest)

/-- The curve used by `test_curve` and by the spec's test vector. -/
def testPoints : List (ℚ × ℚ) := [(10, 10), (20, 20), (30, 30), (70, 80), (80, 100)]

/-! ## Device discovery (`Card`, `Scanner`) -/

/-- The Python exceptions that drive control flow in discovery. -/
inductive PyErr
  | fileNotFound
  | attributeError
deriving DecidableEq

/-- Abstraction of the sysfs tree under `/sys/class/drm`:
`rootNodes` is `os.listdir(ROOT_DIR)`; `hwmonListing id` is
`os.listdir(ROOT_DIR/id/device/hwmon)`, `none` when that directory is
missing (`FileNotFoundError`); `endpointListing id monitor` is the
listing of the chosen hwmon subdirectory. -/
structure SysFS where
  rootNodes : List String
  hwmonListing : String → Option (List String)
  endpointListing : String → String → List String

/-- Predicate for `re.match(r"^hwmon\d$", s)`. -/
def matchesHwmon (s : String) : Bool :=
  match s.toList with
  | ['h', 'w', 'm', 'o', 'n', d] => d.isDigit
  | _ => false

/-- Predicate for `re.match(r"^card\d$", s)`. -/
def matchesCard (s : String) : Bool :=
  match s.toList with
  | ['c', 'a', 'r', 'd', d] => d.isDigit
  | _ => false

/-- A materialized `Card`: its id, the hwmon subnode chosen by
`Card.__init__` (the last regex match in the listing), and the endpoint
names kept by `Card._load_endpoints`. -/
structure Card where
  id : String
  monitor : String
  endpoints : List String
deriving DecidableEq

/-- The bookkeeping entries `Card._load_endpoints` discards. -/
def bookkeepingNodes : List String := ["device", "power", "subsystem", "uevent"]

/-- Model of `Card._load_endpoints`: every entry of the hwmon directory except the
bookkeeping ones (the dict values are paths, irrelevant here). -/
def loadEndpoints (fs : SysFS) (id monitor : String) : List String :=
  (fs.endpointListing id monitor).filter (fun e => !(bookkeepingNodes.contains e))

/-- Model of `Card.__init__`: raises `FileNotFoundError` when the hwmon directory
is missing; raises `AttributeError` (unset `self._monitor`) when no entry
matches the hwmon pattern; otherwise loads the endpoints.  Note that the
source never calls `Card._verify_card`. -/
def cardInit (fs : SysFS) (id : String) : Except PyErr Card :=
  match fs.hwmonListing id with
  | none => .error .fileNotFound
  | some nodes =>
    match (nodes.filter matchesHwmon).getLast? with
    | none => .error .attributeError
    | some monitor => .ok ⟨id, monitor, loadEndpoints fs id monitor⟩

/-- Source constant `Card.AMD_FIELDS`: the required endpoints. -/
def AMD_FIELDS : List String := ["temp1_input", "pwm1_max", "pwm1_min", "pwm1_enable", "pwm1"]

/-- Model of `Card._verify_card` (defined in the source but never invoked):
raises `FileNotFoundError` when a required endpoint is missing. -/
def verifyCard (c : Card) : Except PyErr Unit :=
  if AMD_FIELDS.all (fun e => c.endpoints.contains e) then .ok () else .error .fileNotFound

/-- Model of `Scanner._get_cards`, folded over the root listing: keeps nodes
matching the card pattern, applies the case-insensitive allow-list (an
empty list means no filtering, as Python treats `None` and `[]` alike),
builds each `Card`, swallows `FileNotFoundError`, and lets any
`AttributeError` escape the whole scan. -/
def getCardsFrom (fs : SysFS) (cardsToScan : List String) :
    List String → Except PyErr (List (String × Card))
  | [] => .ok []
  | node :: rest =>
    if matchesCard node then
      if cardsToScan ≠ [] ∧ ¬ (cardsToScan.map (fun s => s.toLower)).contains node.toLower then
        getCardsFrom fs cardsToScan rest
      else
        match cardInit fs node with
        | .ok c =>
          match getCardsFrom fs cardsToScan rest with
          | .ok cs => .ok ((node, c) :: cs)
          | .error e => .error e
        | .error .fileNotFound => getCardsFrom fs cardsToScan rest
        | .error .attributeError => .error .attributeError
    else getCardsFrom fs cardsToScan rest

/-- Model of `Scanner.__init__` / `Scanner._get_cards` over the whole root. -/
def scan (fs : SysFS) (cardsToScan : List String) : Except PyErr (List (String × Card)) :=
  getCardsFrom fs cardsToScan fs.rootNodes

/-- Model of `Card.read_endpoint` restricted to what matters for the claims: the
dict lookup (`KeyError` when the endpoint is absent) followed by `int()`
parsing of the file contents, supplied by `vals`. -/
def readEndpointVal (c : Card) (vals : String → ℤ) (ep : String) : Option ℤ :=
  if c.endpoints.contains ep then some (vals ep) else none

/-- Model of `Card.fan_speed`: `int(read_endpoint("fan1_input"))`, with `KeyError`
caught and turned into `0`. -/
def fanSpeed (c : Card) (vals : String → ℤ) : ℤ :=
  match readEndpointVal c vals "fan1_input" with
  | some v => v
  | none => 0

/-- Sysfs tree exhibiting the discovery bug: `card0` has a hwmon node but
lacks every pwm endpoint; `card1` is fully equipped; `renderD128` does not
match the card pattern. -/
def fsBug : SysFS where
  rootNodes := ["card0", "card1", "renderD128"]
  hwmonListing := fun id =>
    if id = "card0" then some ["hwmon0"]
    else if id = "card1" then some ["hwmon1"]
    else none
  endpointListing := fun id _ =>
    if id = "card0" then ["name", "temp1_input"]
    else ["temp1_input", "pwm1_max", "pwm1_min", "pwm1_enable", "pwm1", "fan1_input", "device"]

/-! ## Control loop (`Card` write path and `FanController.main`) -/

/-- The state of one card as the control loop sees it: the raw
millidegree reading of `temp1_input`, the parsed `pwm1_max`/`pwm1_min`
bounds, and whether the two written endpoints accept a write (false
models `PermissionError` on open-for-write). -/
structure LoopCard where
  id : String
  tempRaw : ℤ
  fanMax : ℤ
  fanMin : ℤ
  enableWritable : Bool
  pwmWritable : Bool
deriving DecidableEq

/-- One attempted endpoint write (card id, endpoint name, value). -/
structure WriteAttempt where
  cardId : String
  endpoint : String
  value : ℤ
deriving DecidableEq

/-- Whether opening the given endpoint for writing succeeds. -/
def writeOk (c : LoopCard) (ep : String) : Bool :=
  if ep = "pwm1_enable" then c.enableWritable
  else if ep = "pwm1" then c.pwmWritable
  else true

/-- Model of `Card.write_endpoint`: the attempt, and `sys.exit(1)` (exit status 1)
when the open raises `PermissionError`. -/
def writeEndpoint (c : LoopCard) (ep : String) (v : ℤ) : List WriteAttempt × Option ℕ :=
  ([⟨c.id, ep, v⟩], if writeOk c ep then none else some 1)

/-- The enum value `Card.set_system_controlled_fan` writes to
`pwm1_enable`: 2 for automatic control, 1 for manual control. -/
def setSystemControlledFanValue (state : Bool) : ℤ := if state then 2 else 1

/-- Model of `Card.set_system_controlled_fan` as a write trace. -/
def setSystemControlledFanRun (c : LoopCard) (state : Bool) : List WriteAttempt × Option ℕ :=
  writeEndpoint c "pwm1_enable" (setSystemControlledFanValue state)

/-- The raw duty value `Card.set_fan_speed` computes before writing:
`fan_max` at or above 100, `fan_min` at or below 0, otherwise
`int(fan_max / 100 * speed)`. -/
def setFanSpeedValue (fanMax fanMin : ℤ) (speed : ℤ) : ℤ :=
  if 100 ≤ speed then fanMax
  else if speed ≤ 0 then fanMin
  else truncQ ((fanMax : ℚ) / 100 * (speed : ℚ))

/-- Model of `Card.set_fan_speed`: computes the raw duty, forces manual mode via
`set_system_controlled_fan(False)`, then writes `pwm1`; a permission
failure on the mode write exits before the duty write. -/
def setFanSpeedRun (c : LoopCard) (speed : ℤ) : List WriteAttempt × Option ℕ :=
  let raw := setFanSpeedValue c.fanMax c.fanMin speed
  match setSystemControlledFanRun c false with
  | (e1, some code) => (e1, some code)
  | (e1, none) =>
    match writeEndpoint c "pwm1" raw with
    | (e2, r) => (e1 ++ e2, r)

/-- Model of `Card.gpu_temp`: `float(read_endpoint("temp1_input")) / 1000`. -/
def gpuTemp (c : LoopCard) : ℚ := (c.tempRaw : ℚ) / 1000

/-- The percentage `FanController.main` hands to `set_fan_speed`:
`speed = int(curve.get_speed(int(temp)))`, clamped to 0 when negative. -/
def controlPercent (pts : List (ℚ × ℚ)) (c : LoopCard) : ℤ :=
  let speed := truncQ (interp ((truncQ (gpuTemp c) : ℤ) : ℚ) pts)
  if speed < 0 then 0 else speed

/-- The body of the per-card iteration of `FanController.main`. -/
def processCard (pts : List (ℚ × ℚ)) (c : LoopCard) : List WriteAttempt × Option ℕ :=
  setFanSpeedRun c (controlPercent pts c)

/-- One tick of `FanController.main`: cards in snapshot order; an exit
from any card stops the tick (and the process) immediately. -/
def tick (pts : List (ℚ × ℚ)) : List LoopCard → List WriteAttempt × Option ℕ
  | [] => ([], none)
  | c :: rest =>
    match processCard pts c with
    | (evs, some code) => (evs, some code)
    | (evs, none) => (evs ++ (tick pts rest).1, (tick pts rest).2)

end Amdfan

namespace Amdfan

/-! ## Helper lemmas about the curve model -/

/-- Relation: strictly increasing temperatures between adjacent points. -/
def RT (p q : ℚ × ℚ) : Prop := p.1 < q.1

/-- Relation: non-decreasing speeds between adjacent points. -/
def RS (p q : ℚ × ℚ) : Prop := p.2 ≤ q.2

theorem validCurve_checks {pts : List (ℚ × ℚ)} (h : ValidCurve pts) :
    pts ≠ [] ∧
    (speeds pts).any (fun s => decide (s < 0)) = false ∧
    (speeds pts).any (fun s => decide (100 < s)) = false ∧
    (diffs (temps pts)).any (fun d => decide (d ≤ 0)) = false ∧
    (diffs (speeds pts)).any (fun d => decide (d < 0)) = false ∧
    (speeds pts).any (fun s => decide (s ≤ 3)) = false := by
  unfold ValidCurve curveInit at h
  split_ifs at h with h1 h2 h3 h4 h5 h6
  exact ⟨h1, Bool.of_not_eq_true h2, Bool.of_not_eq_true h3, Bool.of_not_eq_true h4,
    Bool.of_not_eq_true h5, Bool.of_not_eq_true h6⟩

theorem chain_of_diffs {P : ℚ → Prop} {R : ℚ × ℚ → ℚ × ℚ → Prop} (f : ℚ × ℚ → ℚ)
    (hPR : ∀ a b, P (f b - f a) → R a b) :
    ∀ pts : List (ℚ × ℚ), (∀ d ∈ diffs (pts.map f), P d) → pts.Chain' R
  | [], _ => List.chain'_nil
  | [_], _ => List.chain'_singleton _
  | p :: q :: rest, h => by
    rw [List.chain'_cons]
    refine ⟨hPR p q (h _ ?_), chain_of_diffs f hPR (q :: rest) fun d hd => h d ?_⟩
    · simp [diffs]
    · simp only [List.map_cons, diffs] at hd ⊢
      exact List.mem_cons_of_mem _ hd

theorem validCurve_chainRT {pts : List (ℚ × ℚ)} (h : ValidCurve pts) : pts.Chain' RT := by
  have hc := (validCurve_checks h).2.2.2.1
  rw [List.any_eq_false] at hc
  refine chain_of_diffs Prod.fst (fun a b hab => sub_pos.mp hab) pts fun d hd => ?_
  have := hc d hd
  simp only [decide_eq_true_eq] at this
  exact lt_of_not_le fun hle => this hle

theorem validCurve_chainRS {pts : List (ℚ × ℚ)} (h : ValidCurve pts) : pts.Chain' RS := by
  have hc := (validCurve_checks h).2.2.2.2.1
  rw [List.any_eq_false] at hc
  refine chain_of_diffs Prod.snd (fun a b hab => sub_nonneg.mp hab) pts fun d hd => ?_
  have := hc d hd
  simp only [decide_eq_true_eq] at this
  exact le_of_not_lt this

theorem validCurve_speed_mem {pts : List (ℚ × ℚ)} (h : ValidCurve pts) :
    ∀ p ∈ pts, 3 < p.2 ∧ p.2 ≤ 100 := by
  have h100 := (validCurve_checks h).2.2.1
  have h3 := (validCurve_checks h).2.2.2.2.2
  rw [List.any_eq_false] at h100 h3
  intro p hp
  have hmem : p.2 ∈ speeds pts := List.mem_map_of_mem Prod.snd hp
  have b100 := h100 _ hmem
  have b3 := h3 _ hmem
  simp only [decide_eq_true_eq] at b100 b3
  exact ⟨lt_of_not_le b3, le_of_not_lt b100⟩

/-- Linear-segment arithmetic: value at the left end. -/
theorem seg_left {t0 t1 s0 s1 : ℚ} :
    s0 + (t0 - t0) / (t1 - t0) * (s1 - s0) = s0 := by
  simp

/-- Linear-segment arithmetic: value at the right end. -/
theorem seg_right {t0 t1 s0 s1 : ℚ} (ht : t0 < t1) :
    s0 + (t1 - t0) / (t1 - t0) * (s1 - s0) = s1 := by
  rw [div_self (by linarith)]
  ring

/-- Linear-segment arithmetic: monotone in the abscissa. -/
theorem seg_mono {t0 t1 s0 s1 x y : ℚ} (ht : t0 < t1) (hs : s0 ≤ s1) (hxy : x ≤ y) :
    s0 + (x - t0) / (t1 - t0) * (s1 - s0) ≤ s0 + (y - t0) / (t1 - t0) * (s1 - s0) := by
  have hd : (0:ℚ) < t1 - t0 := by linarith
  have h1 : (x - t0) / (t1 - t0) ≤ (y - t0) / (t1 - t0) :=
    (div_le_div_iff_of_pos_right hd).mpr (by linarith)
  have h2 : (x - t0) / (t1 - t0) * (s1 - s0) ≤ (y - t0) / (t1 - t0) * (s1 - s0) :=
    mul_le_mul_of_nonneg_right h1 (by linarith)
  linarith

/-- Linear-segment arithmetic: at or above the left ordinate. -/
theorem seg_ge {t0 t1 s0 s1 x : ℚ} (ht : t0 < t1) (hs : s0 ≤ s1) (hx : t0 ≤ x) :
    s0 ≤ s0 + (x - t0) / (t1 - t0) * (s1 - s0) := by
  have := seg_mono (x := t0) (y := x) ht hs hx
  rwa [seg_left] at this

/-- Linear-segment arithmetic: at or below the right ordinate. -/
theorem seg_le {t0 t1 s0 s1 x : ℚ} (ht : t0 < t1) (hs : s0 ≤ s1) (hx : x ≤ t1) :
    s0 + (x - t0) / (t1 - t0) * (s1 - s0) ≤ s1 := by
  have := seg_mono (x := x) (y := t1) ht hs hx
  rwa [seg_right ht] at this

end Amdfan

namespace Amdfan

/-! ## Interpolation lemmas -/

theorem interp_of_le_head {x : ℚ} {p : ℚ × ℚ} (rest : List (ℚ × ℚ)) (hx : x ≤ p.1) :
    interp x (p :: rest) = p.2 := by
  cases rest with
  | nil => simp [interp]
  | cons q r => simp [interp, hx]

theorem chain_snd_le_getLastD : ∀ (rest : List (ℚ × ℚ)) (p : ℚ × ℚ),
    (p :: rest).Chain' RS → p.2 ≤ (rest.getLastD p).2
  | [], _, _ => le_rfl
  | q :: rest, p, h => by
    rw [List.getLastD_cons]
    exact le_trans (List.chain'_cons.mp h).1
      (chain_snd_le_getLastD rest q (List.chain'_cons.mp h).2)

theorem chain_fst_le_getLastD : ∀ (rest : List (ℚ × ℚ)) (p : ℚ × ℚ),
    (p :: rest).Chain' RT → p.1 ≤ (rest.getLastD p).1
  | [], _, _ => le_rfl
  | q :: rest, p, h => by
    rw [List.getLastD_cons]
    exact le_trans (le_of_lt (List.chain'_cons.mp h).1)
      (chain_fst_le_getLastD rest q (List.chain'_cons.mp h).2)

theorem chain_fst_lt_getLastD : ∀ (rs : List (ℚ × ℚ)) (q r : ℚ × ℚ),
    (q :: r :: rs).Chain' RT → q.1 < ((r :: rs).getLastD q).1
  | [], q, r, h => by
    rw [List.getLastD_cons]
    exact (List.chain'_cons.mp h).1
  | r2 :: rs, q, r, h => by
    rw [List.getLastD_cons]
    exact lt_trans (List.chain'_cons.mp h).1
      (chain_fst_lt_getLastD rs r r2 (List.chain'_cons.mp h).2)

theorem interp_ge_head (x : ℚ) : ∀ (rest : List (ℚ × ℚ)) (p : ℚ × ℚ),
    (p :: rest).Chain' RT → (p :: rest).Chain' RS → p.2 ≤ interp x (p :: rest)
  | [], p, _, _ => by simp [interp]
  | q :: rest, p, hT, hS => by
    have hT' := List.chain'_cons.mp hT
    have hS' := List.chain'_cons.mp hS
    by_cases h1 : x ≤ p.1
    · exact ge_of_eq (interp_of_le_head _ h1)
    · by_cases h2 : x ≤ q.1
      · have he : interp x (p :: q :: rest) = p.2 + (x - p.1) / (q.1 - p.1) * (q.2 - p.2) := by
          simp [interp, h1, h2]
        rw [he]
        exact seg_ge hT'.1 hS'.1 (le_of_lt (lt_of_not_le h1))
      · have he : interp x (p :: q :: rest) = interp x (q :: rest) := by
          simp [interp, h1, h2]
        rw [he]
        exact le_trans hS'.1 (interp_ge_head x rest q hT'.2 hS'.2)

theorem interp_le_getLastD (x : ℚ) : ∀ (rest : List (ℚ × ℚ)) (p : ℚ × ℚ),
    (p :: rest).Chain' RT → (p :: rest).Chain' RS → interp x (p :: rest) ≤ (rest.getLastD p).2
  | [], p, _, _ => by simp [interp]
  | q :: rest, p, hT, hS => by
    have hT' := List.chain'_cons.mp hT
    have hS' := List.chain'_cons.mp hS
    rw [List.getLastD_cons]
    by_cases h1 : x ≤ p.1
    · rw [interp_of_le_head _ h1]
      exact le_trans hS'.1 (chain_snd_le_getLastD rest q hS'.2)
    · by_cases h2 : x ≤ q.1
      · have he : interp x (p :: q :: rest) = p.2 + (x - p.1) / (q.1 - p.1) * (q.2 - p.2) := by
          simp [interp, h1, h2]
        rw [he]
        exact le_trans (seg_le hT'.1 hS'.1 h2) (chain_snd_le_getLastD rest q hS'.2)
      · have he : interp x (p :: q :: rest) = interp x (q :: rest) := by
          simp [interp, h1, h2]
        rw [he]
        exact interp_le_getLastD x rest q hT'.2 hS'.2

theorem interp_getLastD (x : ℚ) : ∀ (rest : List (ℚ × ℚ)) (p : ℚ × ℚ),
    (p :: rest).Chain' RT → (rest.getLastD p).1 ≤ x →
    interp x (p :: rest) = (rest.getLastD p).2
  | [], p, _, _ => by simp [interp]
  | q :: rest, p, hT, hx => by
    have hT' := List.chain'_cons.mp hT
    rw [List.getLastD_cons] at hx ⊢
    have hq : q.1 ≤ (rest.getLastD q).1 := chain_fst_le_getLastD rest q hT'.2
    have h1 : ¬ x ≤ p.1 := by
      have hpq : p.1 < q.1 := hT'.1
      intro hc
      have := le_trans hq hx
      linarith
    by_cases h2 : x ≤ q.1
    · cases rest with
      | nil =>
        have hxq : x = q.1 := le_antisymm h2 hx
        have he : interp x [p, q] = p.2 + (x - p.1) / (q.1 - p.1) * (q.2 - p.2) := by
          simp [interp, h1, h2]
        rw [he, hxq, seg_right hT'.1]
        simp
      | cons r rs =>
        have := chain_fst_lt_getLastD rs q r hT'.2
        have := le_trans (le_of_lt this) hx
        exact absurd h2 (by linarith)
    · have he : interp x (p :: q :: rest) = interp x (q :: rest) := by
        simp [interp, h1, h2]
      rw [he]
      exact interp_getLastD x rest q hT'.2 hx

theorem interp_mono_chain {x y : ℚ} (hxy : x ≤ y) : ∀ (pts : List (ℚ × ℚ)),
    pts.Chain' RT → pts.Chain' RS → interp x pts ≤ interp y pts
  | [], _, _ => le_rfl
  | [_], _, _ => le_rfl
  | p :: q :: rest, hT, hS => by
    have hT' := List.chain'_cons.mp hT
    have hS' := List.chain'_cons.mp hS
    by_cases h1 : x ≤ p.1
    · rw [interp_of_le_head _ h1]
      exact interp_ge_head y (q :: rest) p hT hS
    · have hy1 : ¬ y ≤ p.1 := fun hc => h1 (le_trans hxy hc)
      by_cases h2 : x ≤ q.1
      · have hex : interp x (p :: q :: rest) = p.2 + (x - p.1) / (q.1 - p.1) * (q.2 - p.2) := by
          simp [interp, h1, h2]
        by_cases hy2 : y ≤ q.1
        · have hey : interp y (p :: q :: rest) = p.2 + (y - p.1) / (q.1 - p.1) * (q.2 - p.2) := by
            simp [interp, hy1, hy2]
          rw [hex, hey]
          exact seg_mono hT'.1 hS'.1 hxy
        · have hey : interp y (p :: q :: rest) = interp y (q :: rest) := by
            simp [interp, hy1, hy2]
          rw [hex, hey]
          exact le_trans (seg_le hT'.1 hS'.1 h2) (interp_ge_head y rest q hT'.2 hS'.2)
      · have hy2 : ¬ y ≤ q.1 := fun hc => h2 (le_trans hxy hc)
        have hex : interp x (p :: q :: rest) = interp x (q :: rest) := by
          simp [interp, h1, h2]
        have hey : interp y (p :: q :: rest) = interp y (q :: rest) := by
          simp [interp, hy1, hy2]
        rw [hex, hey]
        exact interp_mono_chain hxy (q :: rest) hT'.2 hS'.2

theorem chain_append_fst_lt : ∀ (pre : List (ℚ × ℚ)) (a : ℚ × ℚ) (l2 : List (ℚ × ℚ)),
    (pre ++ a :: l2).Chain' RT → ∀ b ∈ pre, b.1 < a.1
  | [], _, _, _ => by simp
  | p :: pre, a, l2, h => by
    intro b hb
    rcases List.mem_cons.mp hb with hb | hb
    · subst hb
      cases pre with
      | nil => exact (List.chain'_cons.mp h).1
      | cons p2 pre2 =>
        exact lt_trans (List.chain'_cons.mp h).1
          (chain_append_fst_lt (p2 :: pre2) a l2 (List.chain'_cons.mp h).2 p2 (by simp))
    · exact chain_append_fst_lt pre a l2 (List.Chain'.tail h) b hb

theorem interp_segment (x : ℚ) : ∀ (pre : List (ℚ × ℚ)) (t0 s0 t1 s1 : ℚ) (suf : List (ℚ × ℚ)),
    (pre ++ (t0, s0) :: (t1, s1) :: suf).Chain' RT → t0 ≤ x → x ≤ t1 →
    interp x (pre ++ (t0, s0) :: (t1, s1) :: suf) = s0 + (x - t0) / (t1 - t0) * (s1 - s0)
  | [], t0, s0, t1, s1, suf, hT, hx0, hx1 => by
    simp only [List.nil_append]
    have ht : t0 < t1 := (List.chain'_cons.mp hT).1
    by_cases h1 : x ≤ t0
    · have hx : x = t0 := le_antisymm h1 hx0
      rw [interp_of_le_head _ h1, hx]
      exact seg_left.symm
    · simp [interp, h1, hx1]
  | p :: pre, t0, s0, t1, s1, suf, hT, hx0, hx1 => by
    have hplt : p.1 < t0 :=
      chain_append_fst_lt (p :: pre) (t0, s0) ((t1, s1) :: suf) hT p (by simp)
    have h1 : ¬ x ≤ p.1 := by intro hc; linarith
    cases pre with
    | nil =>
      have hT' := List.chain'_cons.mp hT
      by_cases h2 : x ≤ t0
      · have hx : x = t0 := le_antisymm h2 hx0
        have he : interp x (p :: (t0, s0) :: (t1, s1) :: suf) =
            p.2 + (x - p.1) / (t0 - p.1) * (s0 - p.2) := by
          simp [interp, h1, h2]
        rw [List.cons_append, List.nil_append, he, hx, seg_right hplt]
        exact seg_left.symm
      · have he : interp x (p :: (t0, s0) :: (t1, s1) :: suf) =
            interp x ((t0, s0) :: (t1, s1) :: suf) := by
          simp [interp, h1, h2]
        rw [List.cons_append, List.nil_append, he]
        exact interp_segment x [] t0 s0 t1 s1 suf hT'.2 hx0 hx1
    | cons p2 pre2 =>
      have hp2 : p2.1 < t0 :=
        chain_append_fst_lt (p :: p2 :: pre2) (t0, s0) ((t1, s1) :: suf) hT p2 (by simp)
      have h2 : ¬ x ≤ p2.1 := by intro hc; linarith
      have he : interp x (p :: p2 :: (pre2 ++ (t0, s0) :: (t1, s1) :: suf)) =
          interp x (p2 :: (pre2 ++ (t0, s0) :: (t1, s1) :: suf)) := by
        simp [interp, h1, h2]
      rw [List.cons_append, List.cons_append, he]
      exact interp_segment x (p2 :: pre2) t0 s0 t1 s1 suf (List.Chain'.tail hT) hx0 hx1

end Amdfan

namespace Amdfan

/-! ## Bool/Prop converters for the validation checks -/

theorem any_speeds_false {pts : List (ℚ × ℚ)} {f : ℚ → Bool}
    (h : ∀ p ∈ pts, f p.2 = false) : (speeds pts).any f = false := by
  rw [List.any_eq_false]
  intro s hs
  rcases List.mem_map.mp hs with ⟨p, hp, rfl⟩
  simp [h p hp]

theorem any_speeds_true {pts : List (ℚ × ℚ)} {f : ℚ → Bool} (p : ℚ × ℚ)
    (hp : p ∈ pts) (h : f p.2 = true) : (speeds pts).any f = true := by
  rw [List.any_eq_true]
  exact ⟨p.2, List.mem_map_of_mem Prod.snd hp, h⟩

theorem testPoints_valid : ValidCurve testPoints := by
  unfold ValidCurve
  norm_num [curveInit, testPoints, speeds, temps, diffs]
  intro h
  exact absurd h (by simp)

end Amdfan

namespace Amdfan

/-- C2 (amended): `Curve.__init__` checks the invariants in a fixed
sequence and raises a distinct error on the first violated one, in this
order: some speed negative; some speed above 100; temperatures not
strictly increasing; speeds decreasing between consecutive points;
minimum speed at most 3.  (The source's floor check is `min(speeds) <= 3`
rather than `< 4`, so a fractional minimum speed such as 3.5 — below the
hardware floor of 4 — is accepted; for integer speeds the two conditions
agree.) -/
theorem curve_error_order (pts : List (ℚ × ℚ)) :
    ((∃ p ∈ pts, p.2 < 0) → curveInit pts = .error .negativeSpeed) ∧
    ((∀ p ∈ pts, 0 ≤ p.2) → (∃ p ∈ pts, 100 < p.2) →
      curveInit pts = .error .speedOver100) ∧
    ((∀ p ∈ pts, 0 ≤ p.2 ∧ p.2 ≤ 100) → (∃ d ∈ diffs (temps pts), d ≤ 0) →
      curveInit pts = .error .tempsNotIncreasing) ∧
    ((∀ p ∈ pts, 0 ≤ p.2 ∧ p.2 ≤ 100) → (∀ d ∈ diffs (temps pts), 0 < d) →
      (∃ d ∈ diffs (speeds pts), d < 0) → curveInit pts = .error .speedsDecreasing) ∧
    ((∀ p ∈ pts, 0 ≤ p.2 ∧ p.2 ≤ 100) → (∀ d ∈ diffs (temps pts), 0 < d) →
      (∀ d ∈ diffs (speeds pts), 0 ≤ d) → (∃ p ∈ pts, p.2 ≤ 3) →
      curveInit pts = .error .minSpeedFloor) := by
  refine ⟨?_, ?_, ?_, ?_, ?_⟩
  · rintro ⟨p, hp, hneg⟩
    have hne : pts ≠ [] := by rintro rfl; exact absurd hp (List.not_mem_nil p)
    have hany : (speeds pts).any (fun s => decide (s < 0)) = true :=
      any_speeds_true p hp (by simp [hneg])
    unfold curveInit
    rw [if_neg hne, if_pos hany]
  · rintro hnn ⟨p, hp, hover⟩
    have hne : pts ≠ [] := by rintro rfl; exact absurd hp (List.not_mem_nil p)
    have h1 : (speeds pts).any (fun s => decide (s < 0)) = false :=
      any_speeds_false fun q hq => by simp [not_lt.mpr (hnn q hq)]
    have h2 : (speeds pts).any (fun s => decide (100 < s)) = true :=
      any_speeds_true p hp (by simp [hover])
    unfold curveInit
    rw [if_neg hne, if_neg (by simp [h1]), if_pos h2]
  · rintro hb ⟨d, hd, hdle⟩
    have hne : pts ≠ [] := by
      rintro rfl
      simp [temps, diffs] at hd
    have h1 : (speeds pts).any (fun s => decide (s < 0)) = false :=
      any_speeds_false fun q hq => by simp [not_lt.mpr (hb q hq).1]
    have h2 : (speeds pts).any (fun s => decide (100 < s)) = false :=
      any_speeds_false fun q hq => by simp [not_lt.mpr (hb q hq).2]
    have h3 : (diffs (temps pts)).any (fun d => decide (d ≤ 0)) = true := by
      rw [List.any_eq_true]
      exact ⟨d, hd, by simp [hdle]⟩
    unfold curveInit
    rw [if_neg hne, if_neg (by simp [h1]), if_neg (by simp [h2]), if_pos h3]
  · rintro hb ht ⟨d, hd, hdlt⟩
    have hne : pts ≠ [] := by
      rintro rfl
      simp [speeds, diffs] at hd
    have h1 : (speeds pts).any (fun s => decide (s < 0)) = false :=
      any_speeds_false fun q hq => by simp [not_lt.mpr (hb q hq).1]
    have h2 : (speeds pts).any (fun s => decide (100 < s)) = false :=
      any_speeds_false fun q hq => by simp [not_lt.mpr (hb q hq).2]
    have h3 : (diffs (temps pts)).any (fun d => decide (d ≤ 0)) = false := by
      rw [List.any_eq_false]
      intro e he
      simp [not_le.mpr (ht e he)]
    have h4 : (diffs (speeds pts)).any (fun d => decide (d < 0)) = true := by
      rw [List.any_eq_true]
      exact ⟨d, hd, by simp [hdlt]⟩
    unfold curveInit
    rw [if_neg hne, if_neg (by simp [h1]), if_neg (by simp [h2]), if_neg (by simp [h3]),
      if_pos h4]
  · rintro hb ht hs ⟨p, hp, hple⟩
    have hne : pts ≠ [] := by rintro rfl; exact absurd hp (List.not_mem_nil p)
    have h1 : (speeds pts).any (fun s => decide (s < 0)) = false :=
      any_speeds_false fun q hq => by simp [not_lt.mpr (hb q hq).1]
    have h2 : (speeds pts).any (fun s => decide (100 < s)) = false :=
      any_speeds_false fun q hq => by simp [not_lt.mpr (hb q hq).2]
    have h3 : (diffs (temps pts)).any (fun d => decide (d ≤ 0)) = false := by
      rw [List.any_eq_false]
      intro e he
      simp [not_le.mpr (ht e he)]
    have h4 : (diffs (speeds pts)).any (fun d => decide (d < 0)) = false := by
      rw [List.any_eq_false]
      intro e he
      simp [not_lt.mpr (hs e he)]
    have h5 : (speeds pts).any (fun s => decide (s ≤ 3)) = true :=
      any_speeds_true p hp (by simp [hple])
    unfold curveInit
    rw [if_neg hne, if_neg (by simp [h1]), if_neg (by simp [h2]), if_neg (by simp [h3]),
      if_neg (by simp [h4]), if_pos h5]

/-- Witness for C2: a single point with speed 3 trips the floor error, a
negative speed trips the negative-speed error. -/
theorem curve_error_order_witness :
    curveInit [((10:ℚ), (3:ℚ))] = .error .minSpeedFloor ∧
    curveInit [((10:ℚ), (-1:ℚ)), (20, 10)] = .error .negativeSpeed := by
  constructor
  · exact (curve_error_order [((10:ℚ), (3:ℚ))]).2.2.2.2
      (by norm_num) (by simp [temps, diffs]) (by simp [speeds, diffs])
      ⟨(10, 3), by simp, by norm_num⟩
  · exact (curve_error_order [((10:ℚ), (-1:ℚ)), (20, 10)]).1
      ⟨(10, -1), by simp, by norm_num⟩

/-- C2 counterexample: the claim as stated says a minimum speed below 4
forces the floor error, but the curve `[(10, 3.5), (20, 10)]` has
minimum speed 3.5 < 4, satisfies every other invariant, and is accepted
by `Curve.__init__` because the source tests `min(speeds) <= 3`. -/
theorem curve_floor_claim_counterexample :
    curveInit [((10:ℚ), 7/2), (20, 10)] = .ok [((10:ℚ), 7/2), (20, 10)] ∧
    (∃ p ∈ [((10:ℚ), (7:ℚ)/2), ((20:ℚ), (10:ℚ))], p.2 < 4) ∧
    (∀ p ∈ [((10:ℚ), (7:ℚ)/2), ((20:ℚ), (10:ℚ))], 0 ≤ p.2 ∧ p.2 ≤ 100) ∧
    (∀ d ∈ diffs (temps [((10:ℚ), (7:ℚ)/2), ((20:ℚ), (10:ℚ))]), 0 < d) ∧
    (∀ d ∈ diffs (speeds [((10:ℚ), (7:ℚ)/2), ((20:ℚ), (10:ℚ))]), 0 ≤ d) := by
  refine ⟨?_, ⟨(10, 7/2), by simp, by norm_num⟩, ?_, ?_, ?_⟩
  · norm_num [curveInit, speeds, temps, diffs]
    intro h
    exact absurd h (by simp)
  · rintro p hp
    rcases List.mem_cons.mp hp with rfl | hp
    · norm_num
    · rcases List.mem_cons.mp hp with rfl | hp
      · norm_num
      · exact absurd hp (List.not_mem_nil p)
  · intro d hd
    norm_num [temps, diffs] at hd
    rw [hd]
    norm_num
  · intro d hd
    norm_num [speeds, diffs] at hd
    rw [hd]
    norm_num

end Amdfan

namespace Amdfan

/-- C3: on the curve `[[10,10],[20,20],[30,30],[70,80],[80,100]]`,
`get_speed` returns 67.5 at 60, 55 at 50, 100 at 80 and 10 at 0; and on
any valid curve `get_speed` clamps temperatures at or below the first
point to the first speed, clamps temperatures at or above the last point
to the last speed, and interpolates linearly between consecutive points
as `s0 + (temp - t0) / (t1 - t0) * (s1 - s0)`. -/
theorem curve_get_speed_values_and_clamping :
    interp 60 testPoints = 135/2 ∧
    interp 50 testPoints = 55 ∧
    interp 80 testPoints = 100 ∧
    interp 0 testPoints = 10 ∧
    (∀ (p : ℚ × ℚ) (rest : List (ℚ × ℚ)) (x : ℚ),
      ValidCurve (p :: rest) → x ≤ p.1 → interp x (p :: rest) = p.2) ∧
    (∀ (p : ℚ × ℚ) (rest : List (ℚ × ℚ)) (x : ℚ),
      ValidCurve (p :: rest) → (rest.getLastD p).1 ≤ x →
      interp x (p :: rest) = (rest.getLastD p).2) ∧
    (∀ (pre : List (ℚ × ℚ)) (t0 s0 t1 s1 : ℚ) (suf : List (ℚ × ℚ)) (x : ℚ),
      ValidCurve (pre ++ (t0, s0) :: (t1, s1) :: suf) → t0 ≤ x → x ≤ t1 →
      interp x (pre ++ (t0, s0) :: (t1, s1) :: suf) =
        s0 + (x - t0) / (t1 - t0) * (s1 - s0)) := by
  refine ⟨by norm_num [interp, testPoints], by norm_num [interp, testPoints],
    by norm_num [interp, testPoints], by norm_num [interp, testPoints], ?_, ?_, ?_⟩
  · intro p rest x _ hx
    exact interp_of_le_head rest hx
  · intro p rest x hv hx
    exact interp_getLastD x rest p (validCurve_chainRT hv) hx
  · intro pre t0 s0 t1 s1 suf x hv hx0 hx1
    exact interp_segment x pre t0 s0 t1 s1 suf (validCurve_chainRT hv) hx0 hx1

/-- Witness for C3: the clamping and segment conjuncts applied to the
test curve at concrete temperatures. -/
theorem curve_get_speed_values_and_clamping_witness :
    interp 5 testPoints = 10 ∧
    interp 95 testPoints = 100 ∧
    interp 60 testPoints = 135/2 := by
  have h := curve_get_speed_values_and_clamping
  refine ⟨?_, ?_, ?_⟩
  · exact h.2.2.2.2.1 (10, 10) [(20, 20), (30, 30), (70, 80), (80, 100)] 5
      testPoints_valid (by norm_num)
  · exact h.2.2.2.2.2.1 (10, 10) [(20, 20), (30, 30), (70, 80), (80, 100)] 95
      testPoints_valid (by norm_num [List.getLastD])
  · have hseg := h.2.2.2.2.2.2 [(10, 10), (20, 20)] 30 30 70 80 [(80, 100)] 60
      testPoints_valid (by norm_num) (by norm_num)
    have harith : (30:ℚ) + (60 - 30) / (70 - 30) * (80 - 30) = 135/2 := by norm_num
    exact hseg.trans harith

/-- C4: for a successfully constructed curve, `get_speed` is
monotonically non-decreasing in the temperature. -/
theorem curve_get_speed_monotone (pts : List (ℚ × ℚ)) (x y : ℚ)
    (hv : ValidCurve pts) (hxy : x ≤ y) : interp x pts ≤ interp y pts :=
  interp_mono_chain hxy pts (validCurve_chainRT hv) (validCurve_chainRS hv)

/-- Witness for C4 on the test curve. -/
theorem curve_get_speed_monotone_witness :
    (50:ℚ) ≤ 62 ∧ interp 50 testPoints ≤ interp 62 testPoints :=
  ⟨by norm_num, curve_get_speed_monotone testPoints 50 62 testPoints_valid (by norm_num)⟩

/-- C9 (amended): on a successfully constructed curve every value of
`get_speed` lies between the first point's speed and the last point's
speed; combined with the construction invariants (`min(speeds) > 3`,
`max(speeds) ≤ 100`), every returned speed lies in the interval
(3, 100] — not necessarily in [4, 100], since construction accepts
fractional minimum speeds in (3, 4). -/
theorem curve_get_speed_bounds (pts : List (ℚ × ℚ)) (x : ℚ) (p : ℚ × ℚ)
    (rest : List (ℚ × ℚ)) (hv : ValidCurve pts) (hpts : pts = p :: rest) :
    p.2 ≤ interp x pts ∧ interp x pts ≤ (rest.getLastD p).2 ∧
    3 < interp x pts ∧ interp x pts ≤ 100 := by
  subst hpts
  have hT := validCurve_chainRT hv
  have hS := validCurve_chainRS hv
  have h1 := interp_ge_head x rest p hT hS
  have h2 := interp_le_getLastD x rest p hT hS
  have hmem := validCurve_speed_mem hv
  have hp3 : 3 < p.2 := (hmem p (List.mem_cons_self p rest)).1
  have hl100 : (rest.getLastD p).2 ≤ 100 :=
    (hmem _ (List.getLastD_mem_cons rest p)).2
  exact ⟨h1, h2, lt_of_lt_of_le hp3 h1, le_trans h2 hl100⟩

/-- Witness for C9 on the test curve at temperature 42. -/
theorem curve_get_speed_bounds_witness :
    (10:ℚ) ≤ interp 42 testPoints ∧ interp 42 testPoints ≤ 100 ∧
    3 < interp 42 testPoints := by
  have h := curve_get_speed_bounds testPoints 42 (10, 10)
    [(20, 20), (30, 30), (70, 80), (80, 100)] testPoints_valid rfl
  exact ⟨h.1, h.2.2.2, h.2.2.1⟩

/-- C9 counterexample: the valid curve `[(5, 3.5), (15, 4)]` yields
`get_speed(0) = 3.5`, which is not in [4, 100]. -/
theorem curve_output_below_four_counterexample :
    ValidCurve [((5:ℚ), 7/2), (15, 4)] ∧
    interp 0 [((5:ℚ), (7:ℚ)/2), ((15:ℚ), (4:ℚ))] = 7/2 ∧
    ¬ ((4:ℚ) ≤ 7/2) := by
  refine ⟨?_, ?_, by norm_num⟩
  · unfold ValidCurve
    norm_num [curveInit, speeds, temps, diffs]
    intro h
    exact absurd h (by simp)
  · norm_num [interp]

end Amdfan

namespace Amdfan

/-! ## Helper lemmas about the write path and the tick -/

theorem setFanSpeedRun_trace_enabled {c : LoopCard} (hc : c.enableWritable = true)
    (speed : ℤ) :
    (setFanSpeedRun c speed).1 =
      [⟨c.id, "pwm1_enable", 1⟩, ⟨c.id, "pwm1", setFanSpeedValue c.fanMax c.fanMin speed⟩] := by
  unfold setFanSpeedRun setSystemControlledFanRun writeEndpoint writeOk
    setSystemControlledFanValue
  simp [hc]

theorem setFanSpeedRun_trace_disabled {c : LoopCard} (hc : c.enableWritable = false)
    (speed : ℤ) :
    (setFanSpeedRun c speed).1 = [⟨c.id, "pwm1_enable", 1⟩] := by
  unfold setFanSpeedRun setSystemControlledFanRun writeEndpoint writeOk
    setSystemControlledFanValue
  simp [hc]

theorem processCard_ok (pts : List (ℚ × ℚ)) (c : LoopCard)
    (h1 : c.enableWritable = true) (h2 : c.pwmWritable = true) :
    (processCard pts c).2 = none := by
  unfold processCard setFanSpeedRun setSystemControlledFanRun writeEndpoint writeOk
    setSystemControlledFanValue
  simp [h1, h2]

theorem processCard_bad (pts : List (ℚ × ℚ)) (c : LoopCard)
    (h : c.enableWritable = false ∨ c.pwmWritable = false) :
    (processCard pts c).2 = some 1 := by
  unfold processCard setFanSpeedRun setSystemControlledFanRun writeEndpoint writeOk
    setSystemControlledFanValue
  rcases h with h | h
  · simp [h]
  · by_cases h1 : c.enableWritable = true
    · simp [h1, h]
    · simp [Bool.of_not_eq_true h1]

theorem tick_cons_exit {pts : List (ℚ × ℚ)} {c : LoopCard} {rest : List LoopCard}
    {evs : List WriteAttempt} {code : ℕ} (h : processCard pts c = (evs, some code)) :
    tick pts (c :: rest) = (evs, some code) := by
  unfold tick
  rw [h]

theorem tick_cons_ok {pts : List (ℚ × ℚ)} {c : LoopCard} {rest : List LoopCard}
    {evs : List WriteAttempt} (h : processCard pts c = (evs, none)) :
    tick pts (c :: rest) = (evs ++ (tick pts rest).1, (tick pts rest).2) := by
  show (match processCard pts c with
    | (evs, some code) => (evs, some code)
    | (evs, none) => (evs ++ (tick pts rest).1, (tick pts rest).2)) = _
  rw [h]

theorem tick_ignores_after_bad (pts : List (ℚ × ℚ)) (bad : LoopCard)
    (post : List LoopCard)
    (hbad : bad.enableWritable = false ∨ bad.pwmWritable = false) :
    ∀ pre : List LoopCard,
    (∀ c ∈ pre, c.enableWritable = true ∧ c.pwmWritable = true) →
    tick pts (pre ++ bad :: post) = tick pts (pre ++ [bad]) ∧
    (tick pts (pre ++ bad :: post)).2 = some 1
  | [], _ => by
    have hb := processCard_bad pts bad hbad
    have hb' : processCard pts bad = ((processCard pts bad).1, some 1) := by
      rw [← hb]
    constructor
    · rw [List.nil_append, List.nil_append, tick_cons_exit hb', tick_cons_exit hb']
    · rw [List.nil_append, tick_cons_exit hb']
  | c :: pre, h => by
    have hc := h c (List.mem_cons_self c pre)
    have hok := processCard_ok pts c hc.1 hc.2
    have hok' : processCard pts c = ((processCard pts c).1, none) := by
      rw [← hok]
    have ih := tick_ignores_after_bad pts bad post hbad pre
      (fun d hd => h d (List.mem_cons_of_mem _ hd))
    constructor
    · rw [List.cons_append, List.cons_append, tick_cons_ok hok', tick_cons_ok hok', ih.1]
    · rw [List.cons_append, tick_cons_ok hok']
      exact ih.2

end Amdfan

namespace Amdfan

/-- C5: `set_fan_speed(percent)` commands exactly `fan_min` for
`percent ≤ 0`, exactly `fan_max` for `percent ≥ 100`, and otherwise
`fan_max * percent / 100` truncated to an integer; the truncated integer
is the value written to the `pwm1` duty endpoint. -/
theorem set_fan_speed_spec (fanMax fanMin percent : ℤ) :
    (percent ≤ 0 → setFanSpeedValue fanMax fanMin percent = fanMin) ∧
    (100 ≤ percent → setFanSpeedValue fanMax fanMin percent = fanMax) ∧
    (0 < percent → percent < 100 →
      setFanSpeedValue fanMax fanMin percent =
        truncQ ((fanMax : ℚ) * (percent : ℚ) / 100)) ∧
    (∀ c : LoopCard, c.enableWritable = true → c.fanMax = fanMax → c.fanMin = fanMin →
      (setFanSpeedRun c percent).1 =
        [⟨c.id, "pwm1_enable", 1⟩, ⟨c.id, "pwm1", setFanSpeedValue fanMax fanMin percent⟩]) := by
  refine ⟨?_, ?_, ?_, ?_⟩
  · intro h
    unfold setFanSpeedValue
    rw [if_neg (by omega), if_pos h]
  · intro h
    unfold setFanSpeedValue
    rw [if_pos h]
  · intro h0 h100
    unfold setFanSpeedValue
    rw [if_neg (by omega), if_neg (by omega)]
    congr 1
    ring
  · intro c hc hmax hmin
    rw [setFanSpeedRun_trace_enabled hc, hmax, hmin]

/-- Witness for C5 with `fan_max = 255`, `fan_min = 7`. -/
theorem set_fan_speed_spec_witness :
    setFanSpeedValue 255 7 0 = 7 ∧
    setFanSpeedValue 255 7 100 = 255 ∧
    setFanSpeedValue 255 7 50 = truncQ ((255:ℚ) * 50 / 100) ∧
    truncQ ((255:ℚ) * 50 / 100) = 127 ∧
    (setFanSpeedRun ⟨"card0", 45000, 255, 7, true, true⟩ 0).1 =
      [⟨"card0", "pwm1_enable", 1⟩, ⟨"card0", "pwm1", setFanSpeedValue 255 7 0⟩] := by
  refine ⟨(set_fan_speed_spec 255 7 0).1 (by norm_num),
    (set_fan_speed_spec 255 7 100).2.1 (by norm_num),
    (set_fan_speed_spec 255 7 50).2.2.1 (by norm_num) (by norm_num),
    by norm_num [truncQ],
    (set_fan_speed_spec 255 7 0).2.2.2 ⟨"card0", 45000, 255, 7, true, true⟩ rfl rfl rfl⟩

/-- C6: a permission failure on any endpoint write during a tick ends
the tick at exit status 1: the result of the tick over
`pre ++ bad :: post` does not depend on `post` at all (no later device is
processed), the exit status is 1, and within one `set_fan_speed` call no
endpoint is ever attempted twice (no retry). -/
theorem tick_permission_fatal (pts : List (ℚ × ℚ)) (pre post : List LoopCard)
    (bad : LoopCard)
    (hpre : ∀ c ∈ pre, c.enableWritable = true ∧ c.pwmWritable = true)
    (hbad : bad.enableWritable = false ∨ bad.pwmWritable = false) :
    tick pts (pre ++ bad :: post) = tick pts (pre ++ [bad]) ∧
    (tick pts (pre ++ bad :: post)).2 = some 1 ∧
    ∀ d : LoopCard, ((processCard pts d).1.map WriteAttempt.endpoint).Nodup := by
  have h := tick_ignores_after_bad pts bad post hbad pre hpre
  refine ⟨h.1, h.2, ?_⟩
  intro d
  by_cases hd : d.enableWritable = true
  · rw [show (processCard pts d).1 = (setFanSpeedRun d (controlPercent pts d)).1 from rfl,
      setFanSpeedRun_trace_enabled hd]
    simp
  · rw [show (processCard pts d).1 = (setFanSpeedRun d (controlPercent pts d)).1 from rfl,
      setFanSpeedRun_trace_disabled (Bool.of_not_eq_true hd)]
    simp

/-- Witness for C6: three cards, the middle one not writable; the tick
exits with status 1 and equals the tick that never saw the third card. -/
theorem tick_permission_fatal_witness :
    (tick testPoints ([⟨"card0", 50000, 255, 0, true, true⟩] ++
      (⟨"card1", 60000, 255, 0, false, true⟩ : LoopCard) ::
      [⟨"card2", 70000, 255, 0, true, true⟩])).2 = some 1 ∧
    tick testPoints ([⟨"card0", 50000, 255, 0, true, true⟩] ++
      (⟨"card1", 60000, 255, 0, false, true⟩ : LoopCard) ::
      [⟨"card2", 70000, 255, 0, true, true⟩]) =
    tick testPoints ([⟨"card0", 50000, 255, 0, true, true⟩] ++
      [⟨"card1", 60000, 255, 0, false, true⟩]) := by
  have h := tick_permission_fatal testPoints [⟨"card0", 50000, 255, 0, true, true⟩]
    [⟨"card2", 70000, 255, 0, true, true⟩] ⟨"card1", 60000, 255, 0, false, true⟩
    (by decide) (Or.inl rfl)
  exact ⟨h.2.1, h.1⟩

/-- C7: every `set_fan_speed` call first writes the manual-mode value 1
to the `pwm1_enable` mode switch (via `set_system_controlled_fan(False)`)
and only then, if at all, writes the duty endpoint `pwm1`: the first
attempted write is the mode write, and any `pwm1` write sits at a
strictly later position of the call's write trace. -/
theorem set_speed_mode_before_duty (c : LoopCard) (percent : ℤ) :
    (setFanSpeedRun c percent).1.head? =
      some ⟨c.id, "pwm1_enable", setSystemControlledFanValue false⟩ ∧
    setSystemControlledFanValue false = 1 ∧
    ∀ i : ℕ,
      ((setFanSpeedRun c percent).1.get? i).map WriteAttempt.endpoint = some "pwm1" →
      0 < i := by
  by_cases hc : c.enableWritable = true
  · rw [setFanSpeedRun_trace_enabled hc]
    refine ⟨rfl, rfl, ?_⟩
    intro i hi
    match i with
    | 0 => simp at hi
    | n + 1 => omega
  · rw [setFanSpeedRun_trace_disabled (Bool.of_not_eq_true hc)]
    refine ⟨rfl, rfl, ?_⟩
    intro i hi
    match i with
    | 0 => simp at hi
    | n + 1 => simp [List.get?] at hi

/-- Witness for C7 on a concrete card: the mode write heads the trace and
the only duty write sits at position 1. -/
theorem set_speed_mode_before_duty_witness :
    (setFanSpeedRun ⟨"w0", 45000, 255, 0, true, true⟩ 50).1.head? =
      some ⟨"w0", "pwm1_enable", 1⟩ ∧ (0:ℕ) < 1 := by
  have h := set_speed_mode_before_duty ⟨"w0", 45000, 255, 0, true, true⟩ 50
  exact ⟨h.1, h.2.2 1 (by simp [setFanSpeedRun_trace_enabled, setFanSpeedValue])⟩

/-- C8: the percentage the control loop hands to `set_fan_speed` is
`max(0, int(get_speed(int(temp))))`: the float temperature is truncated
before querying the curve, the interpolated result is truncated, and a
negative result is clamped to 0. -/
theorem control_loop_percent_formula (pts : List (ℚ × ℚ)) (c : LoopCard) :
    controlPercent pts c =
      max 0 (truncQ (interp ((truncQ (gpuTemp c) : ℤ) : ℚ) pts)) ∧
    processCard pts c =
      setFanSpeedRun c (max 0 (truncQ (interp ((truncQ (gpuTemp c) : ℤ) : ℚ) pts))) := by
  have h1 : controlPercent pts c =
      max 0 (truncQ (interp ((truncQ (gpuTemp c) : ℤ) : ℚ) pts)) := by
    show (if truncQ (interp ((truncQ (gpuTemp c) : ℤ) : ℚ) pts) < 0 then 0
      else truncQ (interp ((truncQ (gpuTemp c) : ℤ) : ℚ) pts)) = _
    omega
  refine ⟨h1, ?_⟩
  show setFanSpeedRun c (controlPercent pts c) = _
  rw [h1]

/-- C10: `fan_speed` returns 0 when the tachometer endpoint is absent
from the capability set, and the integer read from it when present. -/
theorem fan_speed_missing_tach (c : Card) (vals : String → ℤ) :
    (c.endpoints.contains "fan1_input" = false → fanSpeed c vals = 0) ∧
    (c.endpoints.contains "fan1_input" = true →
      fanSpeed c vals = vals "fan1_input") := by
  constructor
  · intro h
    have h' : ¬ ("fan1_input" ∈ c.endpoints) := by simpa using h
    simp [fanSpeed, readEndpointVal, h']
  · intro h
    have h' : ("fan1_input" ∈ c.endpoints) := by simpa using h
    simp [fanSpeed, readEndpointVal, h']

/-- Witness for C10: a card without and a card with `fan1_input`. -/
theorem fan_speed_missing_tach_witness :
    fanSpeed ⟨"card0", "hwmon0", ["name", "temp1_input"]⟩ (fun _ => 777) = 0 ∧
    fanSpeed ⟨"card1", "hwmon1", ["temp1_input", "fan1_input"]⟩ (fun _ => 777) = 777 :=
  ⟨(fan_speed_missing_tach ⟨"card0", "hwmon0", ["name", "temp1_input"]⟩ (fun _ => 777)).1
      (by decide),
    (fan_speed_missing_tach ⟨"card1", "hwmon1", ["temp1_input", "fan1_input"]⟩
      (fun _ => 777)).2 (by decide)⟩

/-- C1 (code bug): because `Card.__init__` never calls
`Card._verify_card`, a scanned candidate that has a hwmon subnode but
lacks required endpoints is NOT excluded: on `fsBug`, `card0` (which has
only `name` and `temp1_input`, so `_verify_card` would reject it) is
present in the scan result next to the fully equipped `card1`. -/
theorem scan_keeps_card_missing_required_endpoints :
    scan fsBug [] = .ok
      [("card0", ⟨"card0", "hwmon0", ["name", "temp1_input"]⟩),
       ("card1", ⟨"card1", "hwmon1",
         ["temp1_input", "pwm1_max", "pwm1_min", "pwm1_enable", "pwm1", "fan1_input"]⟩)] ∧
    ("pwm1_min" ∈ (Card.mk "card0" "hwmon0" ["name", "temp1_input"]).endpoints → False) ∧
    verifyCard ⟨"card0", "hwmon0", ["name", "temp1_input"]⟩ = .error .fileNotFound := by
  refine ⟨by decide, by decide, by decide⟩

end Amdfan
